import Mathlib

/-!
Verification of the Statistics & Aggregation Engine of the student-manager
application, a shallow embedding of `src/student-manager/src/pages/Stats.tsx`
(and, for the absence data model, `src/student-manager/src/pages/Dashboard.tsx`).

Modelling conventions:
* Calendar dates are integer day numbers (days since 1970-01-01); the source's
  ISO `YYYY-MM-DD` strings order lexicographically exactly as their day numbers
  order, and `date-fns`' `differenceInDays` on `startOfDay`-normalised dates is
  exact integer subtraction, so day numbers are a faithful model at the calendar
  granularity every claim lives at.
* All period intervals produced by `getDateRange` are of the form
  `[startOfDay a, endOfDay b]`, so the record filter `start ≤ date ≤ end` on
  timestamps is equivalent to the day-granularity comparison used here.
* JavaScript `Math.round` on a nonnegative fraction is `⌊x + 1/2⌋`; it is
  modelled exactly on rationals (`jsRound`).  The `> 0.3` badge-fraction
  comparison is likewise modelled exactly on rationals: for every fraction
  `m / n` with `n` below `10^15` the IEEE-double comparison in the source and
  the exact rational comparison agree, far beyond any realistic record count.
* Nullable fields are `Option`; the `x || fallback` JavaScript idiom is
  `Option.getD`.
-/

namespace StudentManager

/-- The period selector `type TimePeriod = 'day' | 'week' | 'month' | 'year' | 'all'`. -/
inductive TimePeriod
  | day
  | week
  | month
  | year
  | all
deriving DecidableEq

/-- `const REQUIRED_DAYS = ['Monday', 'Tuesday', 'Thursday', 'Friday']` (Stats.tsx:36). -/
def REQUIRED_DAYS : List String := ["Monday", "Tuesday", "Thursday", "Friday"]

/-- `const DAYS_OF_WEEK = ['Sunday', ..., 'Saturday']` (Stats.tsx:37). -/
def DAYS_OF_WEEK : List String :=
  ["Sunday", "Monday", "Tuesday", "Wednesday", "Thursday", "Friday", "Saturday"]

/-- A `myrecords` row (`MyRecord` in `lib/supabase.ts`), restricted to the fields the
statistics engine reads.  `session_date` is `none` when the column is null (the code
then falls back to the calendar day of `created_at`, i.e. `created_at.split('T')[0]`).
`duration_minutes` is `none` for null (the code reads `duration_minutes || 0`).
`time_hour` is the hour `parseInt(time_sent.split(':')[0])`, `none` when `time_sent`
is null or its leading segment does not parse to a number (a NaN hour fails both of
the `< 9` and `≥ 20` comparisons in the source, exactly as `none` does here). -/
structure MyRecord where
  whatsapp_id_student : String
  session_date : Option Int
  created_at_day : Int
  duration_minutes : Option Nat
  time_hour : Option Int
deriving DecidableEq

/-- A `students` row, restricted to the fields the engine reads. -/
structure Student where
  id : Nat
  whatsapp_id_student : String
  name : String
  group_id : Option Nat
deriving DecidableEq

/-- A `groups` row. -/
structure Group where
  id : Nat
  name : String
deriving DecidableEq

/-- A `student_absences` row (`StudentAbsence` in `lib/supabase.ts`), fetched and used
by the Dashboard page; the Stats page does not fetch this table at all. -/
structure StudentAbsence where
  whatsapp_id_student : String
  absence_date : Int
deriving DecidableEq

/-- The record's effective calendar day:
`r.session_date ? parseISO(r.session_date) : parseISO(r.created_at)` for period
placement, and `r.session_date || r.created_at.split('T')[0]` for streaks — both
resolve to the session date when present, else the created date. -/
def effectiveDate (r : MyRecord) : Int :=
  r.session_date.getD r.created_at_day

/-- Sunday-based weekday index of a day number: day 0 (1970-01-01) was a Thursday. -/
def weekdayIndex (d : Int) : Int := (d + 4) % 7

/-- The weekday name of a day number, as `date-fns` `format(d, 'EEEE')` produces it. -/
def weekdayName (d : Int) : String := DAYS_OF_WEEK.getD (weekdayIndex d).toNat ""

/-- `date-fns` `startOfWeek(d, { weekStartsOn: 1 })` at day granularity:
the greatest Monday not after `d`. -/
def startOfWeekMonday (d : Int) : Int := d - ((d + 3) % 7)

/-- Day number of a proleptic-Gregorian calendar date (year, month 1–12, day 1–31);
the civil-from-days algorithm used by every mainstream date library. -/
def daysFromCivil (y m d : Int) : Int :=
  let y1 := if m ≤ 2 then y - 1 else y
  let era := (if 0 ≤ y1 then y1 else y1 - 399) / 400
  let yoe := y1 - era * 400
  let mp := (m + 9) % 12
  let doy := (153 * mp + 2) / 5 + d - 1
  let doe := yoe * 365 + yoe / 4 - yoe / 100 + doy
  era * 146097 + doe - 719468

/-- Calendar date (year, month, day) of a day number; inverse of `daysFromCivil`. -/
def civilFromDays (z : Int) : Int × Int × Int :=
  let z1 := z + 719468
  let era := (if 0 ≤ z1 then z1 else z1 - 146096) / 146097
  let doe := z1 - era * 146097
  let yoe := (doe - doe / 1460 + doe / 36524 - doe / 146096) / 365
  let y := yoe + era * 400
  let doy := doe - (365 * yoe + yoe / 4 - yoe / 100)
  let mp := (5 * doy + 2) / 153
  let d := doy - (153 * mp + 2) / 5 + 1
  let m := mp + (if mp < 10 then 3 else -9)
  (if m ≤ 2 then y + 1 else y, m, d)

/-- `date-fns` `startOfMonth` at day granularity. -/
def startOfMonthDay (d : Int) : Int :=
  let c := civilFromDays d
  daysFromCivil c.1 c.2.1 1

/-- `date-fns` `endOfMonth` at day granularity. -/
def endOfMonthDay (d : Int) : Int :=
  let c := civilFromDays d
  (if c.2.1 = 12 then daysFromCivil (c.1 + 1) 1 1 else daysFromCivil c.1 (c.2.1 + 1) 1) - 1

/-- `date-fns` `startOfYear` at day granularity. -/
def startOfYearDay (d : Int) : Int := daysFromCivil (civilFromDays d).1 1 1

/-- `date-fns` `endOfYear` at day granularity. -/
def endOfYearDay (d : Int) : Int := daysFromCivil (civilFromDays d).1 12 31

/-- `getDateRange(period, referenceDate)` (Stats.tsx:66–80) at calendar-day
granularity.  The `'all'` branch reads the real clock (`endOfDay(new Date())`) rather
than the reference date, so the current real day is an explicit input `today`. -/
def getDateRange (period : TimePeriod) (referenceDate today : Int) : Int × Int :=
  match period with
  | .day => (referenceDate, referenceDate)
  | .week => (startOfWeekMonday referenceDate, startOfWeekMonday referenceDate + 6)
  | .month => (startOfMonthDay referenceDate, endOfMonthDay referenceDate)
  | .year => (startOfYearDay referenceDate, endOfYearDay referenceDate)
  | .all => (daysFromCivil 2024 1 1, today)

/-- `getExpectedSessions(period)` (Stats.tsx:83–97).  `format(new Date(), 'EEEE')`
is the weekday name of the current real day, here the input `todayName`; the
reference date being navigated is not consulted. -/
def getExpectedSessions (todayName : String) (period : TimePeriod) : Nat :=
  match period with
  | .day => if todayName ∈ REQUIRED_DAYS then 1 else 0
  | .week => REQUIRED_DAYS.length
  | .month => REQUIRED_DAYS.length * 4
  | .year => REQUIRED_DAYS.length * 52
  | .all => 0

/-- JavaScript `Math.round` on the exact nonnegative fraction `num / den` (`den > 0`):
`⌊num / den + 1/2⌋`. -/
def jsRound (num den : Nat) : Nat := (2 * num + den) / (2 * den)

/-- The `for` loop of the Streak Engine (Stats.tsx:216–225) over the remaining
dates, carrying the loop state `(maxStreak, tempStreak)`; `prev` is
`uniqueDates[i - 1]` and `curr - prev` is `differenceInDays(curr, prev)`. -/
def streakWalk (prev : Int) (rest : List Int) (maxS temp : Nat) : Nat × Nat :=
  match rest with
  | [] => (maxS, temp)
  | curr :: tail =>
    if curr - prev = 1 then streakWalk curr tail maxS (temp + 1)
    else if 1 < curr - prev then streakWalk curr tail (Nat.max maxS temp) 1
    else streakWalk curr tail maxS temp

/-- The Streak Engine body (Stats.tsx:212–233) given the deduplicated sorted date
list: returns `(maxStreak, currentStreak)`.  `today` is `startOfDay(new Date())`
and `today - lastDate` is `differenceInDays(today, lastDate)`. -/
def computeStreaks (uniqueDates : List Int) (today : Int) : Nat × Nat :=
  match uniqueDates with
  | [] => (0, 0)
  | d :: rest =>
    let p := streakWalk d rest 0 1
    let maxStreak := Nat.max p.1 p.2
    let lastDate := rest.getLastD d
    let currentStreak := if today - lastDate ≤ 1 then p.2 else 0
    (maxStreak, currentStreak)

/-- `Array.from(new Set(allStudentRecords.map(r => r.session_date || r.created_at.split('T')[0]))).sort()`
(Stats.tsx:210): the student's distinct effective dates, ascending.  The records are
drawn from the full historical set, not the period-filtered one; the preliminary
sort of `allStudentRecords` by `created_at` cannot affect the deduplicate-then-sort
result, so it is dropped here. -/
def uniqueDates (records : List MyRecord) (key : String) : List Int :=
  List.insertionSort (· ≤ ·)
    (((records.filter (fun r => r.whatsapp_id_student == key)).map effectiveDate).dedup)

/-- The streak pair `(maxStreak, currentStreak)` of one student (Stats.tsx:206–233). -/
def studentStreaks (records : List MyRecord) (key : String) (today : Int) : Nat × Nat :=
  computeStreaks (uniqueDates records key) today

/-- Number of records whose reported hour is before 9 (Stats.tsx:107–110). -/
def morningCount (rs : List MyRecord) : Nat :=
  (rs.filter (fun r => match r.time_hour with | some h => decide (h < 9) | none => false)).length

/-- Number of records whose reported hour is 20 or later (Stats.tsx:112–115). -/
def nightCount (rs : List MyRecord) : Nat :=
  (rs.filter (fun r => match r.time_hour with | some h => decide (20 ≤ h) | none => false)).length

/-- `assignBadges(studentRecords, _totalDuration, completionRate, maxStreak)`
(Stats.tsx:99–130), returning the badge `id` strings in push order. -/
def assignBadges (studentRecords : List MyRecord) (completionRate maxStreak : Nat) :
    List String :=
  (if 30 ≤ maxStreak then ["legend"]
   else if 10 ≤ maxStreak then ["fire"]
   else if 3 ≤ maxStreak then ["warming-up"]
   else [])
  ++ (if 5 < studentRecords.length then
        (if studentRecords.length * 3 < morningCount studentRecords * 10
         then ["early-bird"] else [])
        ++ (if studentRecords.length * 3 < nightCount studentRecords * 10
            then ["night-owl"] else [])
      else [])
  ++ (if completionRate = 100 ∧ 5 < studentRecords.length then ["perfectionist"] else [])

/-- One derived-stats row of the `studentStats` array (Stats.tsx:197–249), without
the display-only `lastSession` field. -/
structure StatsRow where
  totalDuration : Nat
  sessionsCount : Nat
  missedSessions : Int
  completionRate : Nat
  avgDuration : Nat
  maxStreak : Nat
  currentStreak : Nat
  badges : List String
deriving DecidableEq

/-- The body of the `studentStats` map for one student (Stats.tsx:198–248).
`periodRecords` is the period/filter-restricted record list, `records` the full
historical list, `expectedSessions` the value of `getExpectedSessions(period)`. -/
def mkStudentRow (periodRecords records : List MyRecord) (st : Student)
    (period : TimePeriod) (expectedSessions : Nat) (today : Int) : StatsRow :=
  let studentPeriodRecords :=
    periodRecords.filter (fun r => r.whatsapp_id_student == st.whatsapp_id_student)
  let totalDuration := (studentPeriodRecords.map (fun r => r.duration_minutes.getD 0)).sum
  let sessionsCount := studentPeriodRecords.length
  let missedSessions : Int :=
    if period ≠ TimePeriod.all then max 0 ((expectedSessions : Int) - (sessionsCount : Int))
    else 0
  let completionRate :=
    if 0 < expectedSessions then jsRound (sessionsCount * 100) expectedSessions else 100
  let avgDuration := if 0 < sessionsCount then jsRound totalDuration sessionsCount else 0
  let allStudentRecords :=
    records.filter (fun r => r.whatsapp_id_student == st.whatsapp_id_student)
  let streaks := studentStreaks records st.whatsapp_id_student today
  { totalDuration := totalDuration
    sessionsCount := sessionsCount
    missedSessions := missedSessions
    completionRate := completionRate
    avgDuration := avgDuration
    maxStreak := streaks.1
    currentStreak := streaks.2
    badges := assignBadges allStudentRecords completionRate streaks.1 }

/-- The `studentStats` array (Stats.tsx:197–250): one row per student of the active
group/student filter, paired with the student it belongs to. -/
def studentStats (filteredStudents : List Student) (periodRecords records : List MyRecord)
    (period : TimePeriod) (expectedSessions : Nat) (today : Int) :
    List (Student × StatsRow) :=
  filteredStudents.map
    (fun st => (st, mkStudentRow periodRecords records st period expectedSessions today))

/-- The Stats page fetches exactly the `students`, `myrecords` and `groups` tables
(Stats.tsx:152–156); the `student_absences` table read by the Dashboard is not among
its inputs.  This wrapper makes that explicit: the absence list is accepted and
ignored by the computation. -/
def studentStatsWithAbsences (filteredStudents : List Student)
    (periodRecords records : List MyRecord) (absences : List StudentAbsence)
    (period : TimePeriod) (expectedSessions : Nat) (today : Int) :
    List (Student × StatsRow) :=
  studentStats filteredStudents periodRecords records period expectedSessions today

/-- The Dashboard's in-window absence count for one student (Dashboard.tsx:360–363). -/
def absencesInPeriod (absences : List StudentAbsence) (key : String) (s e : Int) : Nat :=
  (absences.filter (fun a =>
    a.whatsapp_id_student == key && decide (s ≤ a.absence_date) && decide (a.absence_date ≤ e))).length

/-- The period filter on records (Stats.tsx:182–195, group mode with every group
selected: the effective date lies in `[s, e]`). -/
def periodFilter (records : List MyRecord) (s e : Int) : List MyRecord :=
  records.filter (fun r => decide (s ≤ effectiveDate r) && decide (effectiveDate r ≤ e))

/-- One student's `totalDuration` over the period-filtered records (Stats.tsx:199–200). -/
def studentTotalDuration (periodRecords : List MyRecord) (key : String) : Nat :=
  ((periodRecords.filter (fun r => r.whatsapp_id_student == key)).map
    (fun r => r.duration_minutes.getD 0)).sum

/-- `students.filter(s => s.group_id === group.id)` (Stats.tsx:255). -/
def groupMembers (students : List Student) (g : Group) : List Student :=
  students.filter (fun s => s.group_id == some g.id)

/-- The group rollup's record selection (Stats.tsx:256–260): records owned by a
current member of the group whose effective date lies in `[s, e]`. -/
def groupRecords (records : List MyRecord) (groupStudents : List Student) (s e : Int) :
    List MyRecord :=
  records.filter (fun r =>
    groupStudents.any (fun st => st.whatsapp_id_student == r.whatsapp_id_student)
    && decide (s ≤ effectiveDate r) && decide (effectiveDate r ≤ e))

/-- The group rollup's `totalDuration` (Stats.tsx:262). -/
def groupTotalDuration (records : List MyRecord) (groupStudents : List Student) (s e : Int) :
    Nat :=
  ((groupRecords records groupStudents s e).map (fun r => r.duration_minutes.getD 0)).sum

/-- Lengths of the maximal runs of consecutive dates starting from a run already
`cur` long at `prev` — the specification-side reading of the streak walk (spec §4.5:
a gap of exactly 1 extends the run, a larger gap closes it and opens a run of 1). -/
def runsFrom (prev : Int) (rest : List Int) (cur : Nat) : List Nat :=
  match rest with
  | [] => [cur]
  | d :: tail =>
    if d - prev = 1 then runsFrom d tail (cur + 1) else cur :: runsFrom d tail 1

/-- The run-length decomposition of an ascending date list. -/
def runLengths : List Int → List Nat
  | [] => []
  | d :: rest => runsFrom d rest 1

/-- The largest run length of an ascending date list (0 when empty). -/
def maxRun (dates : List Int) : Nat := (runLengths dates).foldl Nat.max 0

/-- The final (most recent) run length of an ascending date list (0 when empty). -/
def finalRun (dates : List Int) : Nat := (runLengths dates).getLastD 0

/-- The period-filtered records of one student (Stats.tsx:199). -/
def studentPeriodRecords (periodRecords : List MyRecord) (key : String) : List MyRecord :=
  periodRecords.filter (fun r => r.whatsapp_id_student == key)

/-- A record of student `key` on calendar day `d` with a 30-minute duration. -/
def mkRec (key : String) (d : Int) : MyRecord :=
  { whatsapp_id_student := key, session_date := some d, created_at_day := d,
    duration_minutes := some 30, time_hour := some 10 }

/-- A record dated one day after the "today = 100" used in concrete statements. -/
def futureRec : MyRecord := mkRec "s" 101

/-- A three-day gap-free record set. -/
def recs3 : List MyRecord := [mkRec "s" 5, mkRec "s" 6, mkRec "s" 7]

/-- A second record on day 6 (different duration), duplicating an already-counted date. -/
def dup6 : MyRecord :=
  { whatsapp_id_student := "s", session_date := some 6, created_at_day := 6,
    duration_minutes := some 45, time_hour := some 21 }

/-- A demonstration student owning the records above. -/
def demoStudent : Student := { id := 0, whatsapp_id_student := "s", name := "S", group_id := none }

/-- A student with no records, used in concrete instances below. -/
def stK : Student := { id := 0, whatsapp_id_student := "k", name := "K", group_id := none }

/-- First member of the witness group. -/
def stA : Student := { id := 1, whatsapp_id_student := "a", name := "A", group_id := some 1 }

/-- Second member of the witness group. -/
def stB : Student := { id := 2, whatsapp_id_student := "b", name := "B", group_id := some 1 }

/-- The witness group. -/
def grp1 : Group := { id := 1, name := "G" }

/-- Witness records: 60 minutes for student a on day 10, 90 for b on day 11,
plus one out-of-period record on day 20. -/
def recsAB : List MyRecord :=
  [{ whatsapp_id_student := "a", session_date := some 10, created_at_day := 10,
     duration_minutes := some 60, time_hour := some 10 },
   { whatsapp_id_student := "b", session_date := some 11, created_at_day := 11,
     duration_minutes := some 90, time_hour := some 10 },
   { whatsapp_id_student := "a", session_date := some 20, created_at_day := 20,
     duration_minutes := some 45, time_hour := some 10 }]

lemma runsFrom_ne_nil (rest : List Int) (prev : Int) (cur : Nat) :
    runsFrom prev rest cur ≠ [] := by
  induction rest generalizing prev cur with
  | nil => simp [runsFrom]
  | cons d tail ih =>
    simp only [runsFrom]
    split
    · exact ih d (cur + 1)
    · simp

lemma getLastD_indep {l : List Nat} (h : l ≠ []) (x y : Nat) :
    l.getLastD x = l.getLastD y := by
  cases l with
  | nil => exact absurd rfl h
  | cons a t => rw [List.getLastD_cons, List.getLastD_cons]

lemma getLastD_eq_getLast {l : List Nat} (h : l ≠ []) (x : Nat) :
    l.getLastD x = l.getLast h := by
  cases l with
  | nil => exact absurd rfl h
  | cons a t => rw [List.getLastD_cons, List.getLast_eq_getLastD]

lemma streakWalk_spec (rest : List Int) : ∀ (prev : Int) (maxS temp : Nat),
    List.Chain (· < ·) prev rest →
    streakWalk prev rest maxS temp =
      ((runsFrom prev rest temp).dropLast.foldl Nat.max maxS,
       (runsFrom prev rest temp).getLastD 0) := by
  induction rest with
  | nil => intro prev maxS temp _; simp [streakWalk, runsFrom]
  | cons d tail ih =>
    intro prev maxS temp h
    rcases h with _ | ⟨hlt, hchain⟩
    by_cases h1 : d - prev = 1
    · simp only [streakWalk, runsFrom, if_pos h1]
      exact ih d maxS (temp + 1) hchain
    · have h2 : 1 < d - prev := by omega
      simp only [streakWalk, runsFrom, if_neg h1, if_pos h2]
      rw [ih d (Nat.max maxS temp) 1 hchain]
      have hnn := runsFrom_ne_nil tail d 1
      rw [List.dropLast_cons_of_ne_nil hnn, List.foldl_cons, List.getLastD_cons,
        getLastD_indep hnn temp 0]

lemma foldl_max_dropLast (l : List Nat) (m : Nat) (h : l ≠ []) :
    Nat.max (l.dropLast.foldl Nat.max m) (l.getLastD 0) = l.foldl Nat.max m := by
  conv_rhs => rw [← List.dropLast_append_getLast h]
  rw [List.foldl_append]
  simp only [List.foldl_cons, List.foldl_nil]
  congr 1
  exact getLastD_eq_getLast h 0

lemma uniqueDates_sorted (records : List MyRecord) (key : String) :
    (uniqueDates records key).Sorted (· < ·) := by
  have h1 : (uniqueDates records key).Sorted (· ≤ ·) := List.sorted_insertionSort _ _
  have h2 : (uniqueDates records key).Nodup :=
    ((List.perm_insertionSort (· ≤ ·) _).nodup_iff).2 (List.nodup_dedup _)
  exact h1.lt_of_le h2

lemma studentStreaks_spec (records : List MyRecord) (key : String) (today : Int) :
    studentStreaks records key today =
      (maxRun (uniqueDates records key),
       if today - (uniqueDates records key).getLastD 0 ≤ 1
       then finalRun (uniqueDates records key) else 0) := by
  have hsorted := uniqueDates_sorted records key
  unfold studentStreaks computeStreaks
  cases hu : uniqueDates records key with
  | nil => simp [maxRun, finalRun, runLengths]
  | cons d rest =>
    rw [hu] at hsorted
    have hchain : List.Chain (· < ·) d rest := by
      have h3 : List.Chain' (· < ·) (d :: rest) := List.chain'_iff_pairwise.2 hsorted
      exact h3
    simp only
    rw [streakWalk_spec rest d 0 1 hchain]
    have hnn := runsFrom_ne_nil rest d 1
    simp only [Prod.mk.injEq]
    refine ⟨?_, ?_⟩
    · rw [maxRun]
      show Nat.max ((runsFrom d rest 1).dropLast.foldl Nat.max 0) ((runsFrom d rest 1).getLastD 0)
        = (runsFrom d rest 1).foldl Nat.max 0
      exact foldl_max_dropLast _ 0 hnn
    · rw [List.getLastD_cons]
      rfl

lemma runsFrom_getLastD_pos (rest : List Int) : ∀ (prev : Int) (cur : Nat), 0 < cur →
    0 < (runsFrom prev rest cur).getLastD 0 := by
  induction rest with
  | nil => intro prev cur h; simpa [runsFrom]
  | cons d tail ih =>
    intro prev cur h
    simp only [runsFrom]
    split
    · exact ih d (cur + 1) (by omega)
    · rw [List.getLastD_cons, getLastD_indep (runsFrom_ne_nil tail d 1) cur 0]
      exact ih d 1 Nat.one_pos

lemma finalRun_pos (dates : List Int) (h : dates ≠ []) : 0 < finalRun dates := by
  cases dates with
  | nil => exact absurd rfl h
  | cons d rest => exact runsFrom_getLastD_pos rest d 1 Nat.one_pos

lemma streakWalk_allOnes (rest : List Int) : ∀ (prev : Int) (maxS temp : Nat),
    List.Chain (fun a b => b - a = 1) prev rest →
    streakWalk prev rest maxS temp = (maxS, temp + rest.length) := by
  induction rest with
  | nil => intro prev maxS temp _; simp [streakWalk]
  | cons d tail ih =>
    intro prev maxS temp h
    rcases h with _ | ⟨h1, hchain⟩
    simp only [streakWalk, if_pos h1]
    rw [ih d maxS (temp + 1) hchain]
    simp only [List.length_cons, Prod.mk.injEq, true_and]
    omega

lemma insertionSort_dedup_append_mem (l : List Int) (d : Int) (hd : d ∈ l) :
    List.insertionSort (· ≤ ·) ((l ++ [d]).dedup) = List.insertionSort (· ≤ ·) l.dedup := by
  have hperm : List.Perm ((l ++ [d]).dedup) l.dedup := by
    apply (List.perm_ext_iff_of_nodup (List.nodup_dedup _) (List.nodup_dedup _)).2
    intro a
    simp only [List.mem_dedup, List.mem_append, List.mem_singleton]
    exact ⟨fun h => h.elim id (fun he => he ▸ hd), Or.inl⟩
  exact List.eq_of_perm_of_sorted
    (((List.perm_insertionSort _ _).trans hperm).trans (List.perm_insertionSort _ _).symm)
    (List.sorted_insertionSort _ _) (List.sorted_insertionSort _ _)

/-- C1 (amended): the Streak Engine, over the ascending distinct effective dates of
the full record set, satisfies `maxStreak` = largest run length and
`currentStreak` = final run length exactly when `today − lastDate ≤ 1` — a
condition met by a last date equal to today, to yesterday, or to any future day —
and 0 otherwise. -/
theorem streak_engine_characterized (records : List MyRecord) (key : String) (today : Int) :
    studentStreaks records key today =
      (maxRun (uniqueDates records key),
       if today - (uniqueDates records key).getLastD 0 ≤ 1
       then finalRun (uniqueDates records key) else 0) ∧
    (today - (uniqueDates records key).getLastD 0 ≤ 1 ↔
      ((uniqueDates records key).getLastD 0 = today ∨
       (uniqueDates records key).getLastD 0 = today - 1 ∨
       today < (uniqueDates records key).getLastD 0)) :=
  ⟨studentStreaks_spec records key today, by omega⟩

/-- C1 counterexample: with today = 100, a single record dated 101 has its most
recent distinct date (101) neither today (100) nor yesterday (99), yet
`currentStreak` is 1, not 0, contradicting the claim's "if and only if the most
recent distinct date is today or yesterday ... otherwise currentStreak = 0". -/
theorem streak_current_future_cex :
    (uniqueDates [futureRec] "s").getLastD 0 = 101 ∧
    (101 : Int) ≠ 100 ∧ (101 : Int) ≠ 100 - 1 ∧
    (studentStreaks [futureRec] "s" 100).2 = 1 ∧ (1 : Nat) ≠ 0 := by decide

/-- C10: when the most recent distinct effective date lies strictly after today,
`differenceInDays(today, lastDate) ≤ 1` holds (the difference is negative), so
`currentStreak` is still the final run's length, which is positive. -/
theorem future_last_date_keeps_streak (records : List MyRecord) (key : String) (today : Int)
    (hne : uniqueDates records key ≠ [])
    (hfut : today < (uniqueDates records key).getLastD 0) :
    (studentStreaks records key today).2 = finalRun (uniqueDates records key) ∧
    0 < (studentStreaks records key today).2 := by
  have hs := studentStreaks_spec records key today
  have hcond : today - (uniqueDates records key).getLastD 0 ≤ 1 := by omega
  rw [hs]
  constructor
  · show (if today - (uniqueDates records key).getLastD 0 ≤ 1
          then finalRun (uniqueDates records key) else 0) = finalRun (uniqueDates records key)
    rw [if_pos hcond]
  · show 0 < (if today - (uniqueDates records key).getLastD 0 ≤ 1
              then finalRun (uniqueDates records key) else 0)
    rw [if_pos hcond]
    exact finalRun_pos _ hne

theorem future_last_date_keeps_streak_witness :
    (studentStreaks [futureRec] "s" 100).2 = finalRun (uniqueDates [futureRec] "s") ∧
    0 < (studentStreaks [futureRec] "s" 100).2 :=
  future_last_date_keeps_streak [futureRec] "s" 100 (by decide) (by decide)

/-- C4: a gap-free distinct date set yields `maxStreak` equal to its size, and
appending one more record on an effective date the student already has leaves the
streak pair unchanged. -/
theorem streak_gapfree_and_duplicates (records : List MyRecord) (key : String)
    (today : Int) (r' : MyRecord) :
    (List.Chain' (fun a b => b - a = 1) (uniqueDates records key) →
      (studentStreaks records key today).1 = (uniqueDates records key).length) ∧
    (r'.whatsapp_id_student = key →
      effectiveDate r' ∈
        ((records.filter (fun r => r.whatsapp_id_student == key)).map effectiveDate) →
      studentStreaks (records ++ [r']) key today = studentStreaks records key today) := by
  constructor
  · intro hgap
    unfold studentStreaks
    cases hu : uniqueDates records key with
    | nil => simp [computeStreaks]
    | cons d rest =>
      rw [hu] at hgap
      have hchain : List.Chain (fun a b => b - a = 1) d rest := hgap
      unfold computeStreaks
      simp only
      rw [streakWalk_allOnes rest d 0 1 hchain]
      show Nat.max 0 (1 + rest.length) = (d :: rest).length
      simp only [Nat.zero_max, List.length_cons]
      omega
  · intro hk hm
    have heq : uniqueDates (records ++ [r']) key = uniqueDates records key := by
      unfold uniqueDates
      rw [List.filter_append]
      have hone : [r'].filter (fun r => r.whatsapp_id_student == key) = [r'] := by
        simp [List.filter_cons, hk]
      rw [hone, List.map_append, List.map_singleton]
      exact insertionSort_dedup_append_mem _ _ hm
    unfold studentStreaks
    rw [heq]

theorem streak_gapfree_and_duplicates_witness :
    (studentStreaks recs3 "s" 10).1 = (uniqueDates recs3 "s").length ∧
    studentStreaks (recs3 ++ [dup6]) "s" 10 = studentStreaks recs3 "s" 10 :=
  ⟨(streak_gapfree_and_duplicates recs3 "s" 10 dup6).1
     (by rw [(by decide : uniqueDates recs3 "s" = [5, 6, 7])]
         exact List.Chain.cons (by decide) (List.Chain.cons (by decide) List.Chain.nil)),
   (streak_gapfree_and_duplicates recs3 "s" 10 dup6).2 rfl (by decide)⟩

lemma jsRound_eq_round (num den : Nat) (h : 0 < den) :
    (jsRound num den : ℤ) = round ((num : ℚ) / den) := by
  rw [round_eq]
  have hd : (den : ℚ) ≠ 0 := Nat.cast_ne_zero.2 h.ne'
  have h2 : (num : ℚ) / den + 1 / 2 = (((2 * num + den : ℕ) : ℤ) : ℚ) / ((2 * den : ℕ) : ℚ) := by
    push_cast
    field_simp
    ring
  rw [h2, Rat.floor_intCast_div_natCast, jsRound]
  push_cast [Int.natCast_div]
  norm_num

/-- C3: aggregator field characterization. -/
theorem aggregator_fields (periodRecords records : List MyRecord) (st : Student)
    (period : TimePeriod) (expected : Nat) (today : Int) :
    (mkStudentRow periodRecords records st period expected today).totalDuration =
      ((studentPeriodRecords periodRecords st.whatsapp_id_student).map
        (fun r => r.duration_minutes.getD 0)).sum ∧
    (mkStudentRow periodRecords records st period expected today).sessionsCount =
      (studentPeriodRecords periodRecords st.whatsapp_id_student).length ∧
    (mkStudentRow periodRecords records st period expected today).missedSessions =
      (if period = TimePeriod.all then 0
       else max 0 ((expected : Int) -
         ((studentPeriodRecords periodRecords st.whatsapp_id_student).length : Int))) ∧
    0 ≤ (mkStudentRow periodRecords records st period expected today).missedSessions ∧
    ((mkStudentRow periodRecords records st period expected today).completionRate : ℤ) =
      (if expected = 0 then 100
       else round
         (((studentPeriodRecords periodRecords st.whatsapp_id_student).length : ℚ)
           / (expected : ℚ) * 100)) ∧
    ((mkStudentRow periodRecords records st period expected today).avgDuration : ℤ) =
      (if (studentPeriodRecords periodRecords st.whatsapp_id_student).length = 0 then 0
       else round
         (((mkStudentRow periodRecords records st period expected today).totalDuration : ℚ)
           / ((studentPeriodRecords periodRecords st.whatsapp_id_student).length : ℚ))) ∧
    (∃ pr2 recs2 st2 p2 e2 t2, 100 < (mkStudentRow pr2 recs2 st2 p2 e2 t2).completionRate) := by
  refine ⟨rfl, rfl, ?_, ?_, ?_, ?_, ?_⟩
  · show (if period ≠ TimePeriod.all
          then max 0 ((expected : Int) -
            ((periodRecords.filter
              (fun r => r.whatsapp_id_student == st.whatsapp_id_student)).length : Int))
          else 0) = _
    by_cases hp : period = TimePeriod.all <;> simp [hp, studentPeriodRecords]
  · show (0 : Int) ≤ (if period ≠ TimePeriod.all then max 0 _ else 0)
    split
    · exact le_max_left 0 _
    · exact le_refl 0
  · show (((if 0 < expected
            then jsRound ((periodRecords.filter
              (fun r => r.whatsapp_id_student == st.whatsapp_id_student)).length * 100) expected
            else 100) : ℕ) : ℤ) = _
    by_cases he : expected = 0
    · simp [he]
    · have hpos : 0 < expected := Nat.pos_of_ne_zero he
      rw [if_pos hpos, if_neg he, jsRound_eq_round _ _ hpos]
      congr 1
      rw [studentPeriodRecords]
      push_cast
      ring
  · show (((if 0 < (periodRecords.filter
            (fun r => r.whatsapp_id_student == st.whatsapp_id_student)).length
           then jsRound _ (periodRecords.filter
            (fun r => r.whatsapp_id_student == st.whatsapp_id_student)).length
           else 0) : ℕ) : ℤ) = _
    by_cases hc : (periodRecords.filter
        (fun r => r.whatsapp_id_student == st.whatsapp_id_student)).length = 0
    · simp [hc, studentPeriodRecords]
    · have hpos : 0 < (periodRecords.filter
          (fun r => r.whatsapp_id_student == st.whatsapp_id_student)).length :=
        Nat.pos_of_ne_zero hc
      rw [if_pos hpos, jsRound_eq_round _ _ hpos]
      rw [if_neg (by simpa [studentPeriodRecords] using hc)]
      rfl
  · exact ⟨recs3, [], demoStudent, TimePeriod.week, 1, 0, by decide⟩

/-- C7: the expected-session table. -/
theorem expected_sessions_values (todayName : String) :
    getExpectedSessions todayName TimePeriod.day =
      (if todayName = "Monday" ∨ todayName = "Tuesday" ∨ todayName = "Thursday" ∨
          todayName = "Friday" then 1 else 0) ∧
    getExpectedSessions todayName TimePeriod.week = 4 ∧
    getExpectedSessions todayName TimePeriod.month = 4 * 4 ∧
    getExpectedSessions todayName TimePeriod.year = 4 * 52 ∧
    getExpectedSessions todayName TimePeriod.all = 0 ∧
    REQUIRED_DAYS.length = 4 ∧
    (∀ p : TimePeriod, 0 ≤ getExpectedSessions todayName p) := by
  refine ⟨?_, rfl, rfl, rfl, rfl, rfl, fun p => Nat.zero_le _⟩
  simp [getExpectedSessions, REQUIRED_DAYS, List.mem_cons]

/-- C8: week resolves to the Monday–Sunday week containing the reference date, and
"all" resolves to Jan 1 2024 through today, independent of the reference date. -/
theorem date_range_week_and_all (referenceDate today otherRef : Int) :
    weekdayName (getDateRange TimePeriod.week referenceDate today).1 = "Monday" ∧
    weekdayName (getDateRange TimePeriod.week referenceDate today).2 = "Sunday" ∧
    (getDateRange TimePeriod.week referenceDate today).1 ≤ referenceDate ∧
    referenceDate ≤ (getDateRange TimePeriod.week referenceDate today).2 ∧
    (getDateRange TimePeriod.week referenceDate today).2 =
      (getDateRange TimePeriod.week referenceDate today).1 + 6 ∧
    getDateRange TimePeriod.all referenceDate today = (daysFromCivil 2024 1 1, today) ∧
    getDateRange TimePeriod.all referenceDate today =
      getDateRange TimePeriod.all otherRef today ∧
    civilFromDays (daysFromCivil 2024 1 1) = (2024, 1, 1) := by
  have hw1 : weekdayIndex (startOfWeekMonday referenceDate) = 1 := by
    unfold weekdayIndex startOfWeekMonday; omega
  have hw0 : weekdayIndex (startOfWeekMonday referenceDate + 6) = 0 := by
    unfold weekdayIndex startOfWeekMonday; omega
  refine ⟨?_, ?_, ?_, ?_, rfl, rfl, rfl, by decide⟩
  · show DAYS_OF_WEEK.getD ((weekdayIndex (startOfWeekMonday referenceDate)).toNat) "" = "Monday"
    rw [hw1]; rfl
  · show DAYS_OF_WEEK.getD ((weekdayIndex (startOfWeekMonday referenceDate + 6)).toNat) "" = "Sunday"
    rw [hw0]; rfl
  · show startOfWeekMonday referenceDate ≤ referenceDate
    unfold startOfWeekMonday; omega
  · show referenceDate ≤ startOfWeekMonday referenceDate + 6
    unfold startOfWeekMonday; omega

lemma frac_gt_three_tenths (m n : Nat) (hn : 0 < n) :
    ((3 : ℚ) / 10 < (m : ℚ) / (n : ℚ)) ↔ n * 3 < m * 10 := by
  rw [div_lt_div_iff₀ (by norm_num) (by exact_mod_cast hn : (0 : ℚ) < (n : ℚ))]
  rw [show (3 : ℚ) * (n : ℚ) = ((n * 3 : ℕ) : ℚ) by push_cast; ring,
      show (m : ℚ) * 10 = ((m * 10 : ℕ) : ℚ) by push_cast; ring]
  exact_mod_cast Iff.rfl

lemma mem_streak_tier (x : String) (k : Nat) :
    (x ∈ (if 30 ≤ k then ["legend"] else if 10 ≤ k then ["fire"]
          else if 3 ≤ k then ["warming-up"] else ([] : List String))) ↔
      ((x = "legend" ∧ 30 ≤ k) ∨ (x = "fire" ∧ 10 ≤ k ∧ k < 30) ∨
       (x = "warming-up" ∧ 3 ≤ k ∧ k < 10)) := by
  by_cases h30 : 30 ≤ k
  · have h1 : ¬ (k < 30) := by omega
    have h2 : ¬ (k < 10) := by omega
    simp [h30, h1, h2]
  · by_cases h10 : 10 ≤ k
    · have h1 : k < 30 := by omega
      have h2 : ¬ (k < 10) := by omega
      simp [h30, h10, h1, h2]
    · by_cases h3 : 3 ≤ k
      · have h1 : k < 10 := by omega
        simp [h30, h10, h3, h1]
      · simp [h30, h10, h3]

lemma mem_timing (x : String) (len m n : Nat) :
    (x ∈ (if 5 < len then
            (if len * 3 < m * 10 then ["early-bird"] else [])
            ++ (if len * 3 < n * 10 then ["night-owl"] else ([] : List String))
          else [])) ↔
      ((x = "early-bird" ∧ 5 < len ∧ len * 3 < m * 10) ∨
       (x = "night-owl" ∧ 5 < len ∧ len * 3 < n * 10)) := by
  by_cases h5 : 5 < len
  · by_cases hm : len * 3 < m * 10 <;> by_cases hn : len * 3 < n * 10 <;>
      simp [h5, hm, hn]
  · simp [h5]

lemma mem_perfectionist (x : String) (rate len : Nat) :
    (x ∈ (if rate = 100 ∧ 5 < len then ["perfectionist"] else ([] : List String))) ↔
      (x = "perfectionist" ∧ rate = 100 ∧ 5 < len) := by
  by_cases h : rate = 100 ∧ 5 < len <;> simp [h]

lemma mem_assignBadges (x : String) (rs : List MyRecord) (rate streak : Nat) :
    x ∈ assignBadges rs rate streak ↔
      ((x = "legend" ∧ 30 ≤ streak) ∨ (x = "fire" ∧ 10 ≤ streak ∧ streak < 30) ∨
       (x = "warming-up" ∧ 3 ≤ streak ∧ streak < 10) ∨
       (x = "early-bird" ∧ 5 < rs.length ∧ rs.length * 3 < morningCount rs * 10) ∨
       (x = "night-owl" ∧ 5 < rs.length ∧ rs.length * 3 < nightCount rs * 10) ∨
       (x = "perfectionist" ∧ rate = 100 ∧ 5 < rs.length)) := by
  unfold assignBadges
  rw [List.mem_append, List.mem_append, mem_streak_tier, mem_timing, mem_perfectionist]
  simp only [or_assoc]

/-- C6: badge rule characterization. -/
theorem badge_rules (rs : List MyRecord) (completionRate maxStreak : Nat) :
    (("legend" ∈ assignBadges rs completionRate maxStreak) ↔ 30 ≤ maxStreak) ∧
    (("fire" ∈ assignBadges rs completionRate maxStreak) ↔
      (10 ≤ maxStreak ∧ maxStreak < 30)) ∧
    (("warming-up" ∈ assignBadges rs completionRate maxStreak) ↔
      (3 ≤ maxStreak ∧ maxStreak < 10)) ∧
    ((assignBadges rs completionRate maxStreak).countP
        (fun b => b == "legend" || b == "fire" || b == "warming-up") ≤ 1) ∧
    (("early-bird" ∈ assignBadges rs completionRate maxStreak) ↔
      (5 < rs.length ∧ (3 : ℚ) / 10 < (morningCount rs : ℚ) / (rs.length : ℚ))) ∧
    (("night-owl" ∈ assignBadges rs completionRate maxStreak) ↔
      (5 < rs.length ∧ (3 : ℚ) / 10 < (nightCount rs : ℚ) / (rs.length : ℚ))) ∧
    (("perfectionist" ∈ assignBadges rs completionRate maxStreak) ↔
      (completionRate = 100 ∧ 5 < rs.length)) := by
  refine ⟨?_, ?_, ?_, ?_, ?_, ?_, ?_⟩
  · rw [mem_assignBadges]; simp
  · rw [mem_assignBadges]; simp
  · rw [mem_assignBadges]; simp
  · unfold assignBadges
    split_ifs <;> decide
  · rw [mem_assignBadges]
    simp only [false_and, false_or, or_false, true_and, and_false,
      show ("early-bird" = "legend") = False by simp,
      show ("early-bird" = "fire") = False by simp,
      show ("early-bird" = "warming-up") = False by simp,
      show ("early-bird" = "early-bird") = True by simp,
      show ("early-bird" = "night-owl") = False by simp,
      show ("early-bird" = "perfectionist") = False by simp]
    constructor
    · rintro ⟨h5, hcmp⟩
      exact ⟨h5, (frac_gt_three_tenths _ _ (by omega)).2 hcmp⟩
    · rintro ⟨h5, hfrac⟩
      exact ⟨h5, (frac_gt_three_tenths _ _ (by omega)).1 hfrac⟩
  · rw [mem_assignBadges]
    simp only [false_and, false_or, or_false, true_and, and_false,
      show ("night-owl" = "legend") = False by simp,
      show ("night-owl" = "fire") = False by simp,
      show ("night-owl" = "warming-up") = False by simp,
      show ("night-owl" = "early-bird") = False by simp,
      show ("night-owl" = "night-owl") = True by simp,
      show ("night-owl" = "perfectionist") = False by simp]
    constructor
    · rintro ⟨h5, hcmp⟩
      exact ⟨h5, (frac_gt_three_tenths _ _ (by omega)).2 hcmp⟩
    · rintro ⟨h5, hfrac⟩
      exact ⟨h5, (frac_gt_three_tenths _ _ (by omega)).1 hfrac⟩
  · rw [mem_assignBadges]; simp

/-- C2 counterexample: period = week (expectedSessions = 4), a student with no
records and one recorded absence on day 10 inside the period [8, 14]: the Stats
missed count is the full 4 — the excused date still counts as missing, so it is
not excluded as the claim states (it would have to be at most 4 − 1). -/
theorem absences_not_excluded_cex :
    absencesInPeriod [⟨"k", 10⟩] "k" 8 14 = 1 ∧
    (mkStudentRow [] [] stK TimePeriod.week 4 100).missedSessions = 4 ∧
    ¬ ((mkStudentRow [] [] stK TimePeriod.week 4 100).missedSessions ≤ (4 : Int) - 1) := by
  decide

/-- C2 (amended): the Stats page's missed-session count never consults the absence
collection — it is identical for any two absence lists — and equals
`max 0 (expected − sessionCount)` for bounded periods, `0` for `'all'`; an excused
non-report date therefore still counts as missing. -/
theorem missed_sessions_ignore_absences (filteredStudents : List Student)
    (periodRecords records : List MyRecord) (absences1 absences2 : List StudentAbsence)
    (period : TimePeriod) (expected : Nat) (today : Int) (st : Student) :
    studentStatsWithAbsences filteredStudents periodRecords records absences1
        period expected today
      = studentStatsWithAbsences filteredStudents periodRecords records absences2
        period expected today ∧
    (mkStudentRow periodRecords records st period expected today).missedSessions =
      (if period = TimePeriod.all then 0
       else max 0 ((expected : Int) -
         ((periodRecords.filter
           (fun r => r.whatsapp_id_student == st.whatsapp_id_student)).length : Int))) := by
  refine ⟨rfl, ?_⟩
  show (if period ≠ TimePeriod.all
        then max 0 ((expected : Int) - _) else 0) = _
  by_cases hp : period = TimePeriod.all <;> simp [hp]

/-- C9 counterexample: with period = week (expectedSessions = 4) and no records,
the windowless student's entry exists but has missedSessions = 4, not 0:
the stats are not all zero. -/
theorem windowless_student_cex :
    (studentStats [stK] [] [] TimePeriod.week 4 100).length = 1 ∧
    (mkStudentRow [] [] stK TimePeriod.week 4 100).missedSessions = 4 ∧
    ¬ ((mkStudentRow [] [] stK TimePeriod.week 4 100).missedSessions = 0) := by
  decide

/-- C9 (amended): a student matching the active filter always yields an output
entry, even with zero records in the window; that entry has zero totalDuration,
sessionsCount and avgDuration, completionRate 0 (100 when expectedSessions = 0),
and missedSessions equal to the full expectedSessions for bounded periods. -/
theorem windowless_student_entry (filteredStudents : List Student)
    (periodRecords records : List MyRecord) (period : TimePeriod) (expected : Nat)
    (today : Int) (st : Student)
    (hmem : st ∈ filteredStudents)
    (hwin : periodRecords.filter
      (fun r => r.whatsapp_id_student == st.whatsapp_id_student) = []) :
    (st, mkStudentRow periodRecords records st period expected today) ∈
      studentStats filteredStudents periodRecords records period expected today ∧
    (mkStudentRow periodRecords records st period expected today).totalDuration = 0 ∧
    (mkStudentRow periodRecords records st period expected today).sessionsCount = 0 ∧
    (mkStudentRow periodRecords records st period expected today).avgDuration = 0 ∧
    (mkStudentRow periodRecords records st period expected today).completionRate =
      (if expected = 0 then 100 else 0) ∧
    (mkStudentRow periodRecords records st period expected today).missedSessions =
      (if period = TimePeriod.all then 0 else (expected : Int)) := by
  refine ⟨List.mem_map.2 ⟨st, hmem, rfl⟩, ?_, ?_, ?_, ?_, ?_⟩
  · show ((periodRecords.filter _).map _).sum = 0
    rw [hwin]; rfl
  · show (periodRecords.filter _).length = 0
    rw [hwin]; rfl
  · show (if 0 < (periodRecords.filter _).length then _ else 0) = 0
    rw [hwin]; rfl
  · show (if 0 < expected
          then jsRound ((periodRecords.filter _).length * 100) expected else 100) = _
    rw [hwin]
    by_cases he : expected = 0
    · simp [he]
    · have hpos : 0 < expected := Nat.pos_of_ne_zero he
      rw [if_pos hpos, if_neg he]
      show jsRound 0 expected = 0
      unfold jsRound
      exact Nat.div_eq_of_lt (by omega)
  · show (if period ≠ TimePeriod.all
          then max 0 ((expected : Int) - ((periodRecords.filter _).length : Int))
          else 0) = _
    rw [hwin]
    by_cases hp : period = TimePeriod.all
    · simp [hp]
    · simp [hp]

theorem windowless_student_entry_witness :
    ((stK, mkStudentRow [] [] stK TimePeriod.week 4 100) ∈
      studentStats [stK] [] [] TimePeriod.week 4 100) ∧
    (mkStudentRow [] [] stK TimePeriod.week 4 100).totalDuration = 0 ∧
    (mkStudentRow [] [] stK TimePeriod.week 4 100).sessionsCount = 0 ∧
    (mkStudentRow [] [] stK TimePeriod.week 4 100).avgDuration = 0 ∧
    (mkStudentRow [] [] stK TimePeriod.week 4 100).completionRate =
      (if (4 : Nat) = 0 then 100 else 0) ∧
    (mkStudentRow [] [] stK TimePeriod.week 4 100).missedSessions =
      (if TimePeriod.week = TimePeriod.all then 0 else ((4 : Nat) : Int)) :=
  windowless_student_entry [stK] [] [] TimePeriod.week 4 100 stK
    (List.mem_singleton.2 rfl) rfl

lemma beq_symm_str (a b : String) : (a == b) = (b == a) := by
  cases h : a == b
  · cases h2 : b == a
    · rfl
    · have hba : b = a := beq_iff_eq.1 h2
      subst hba
      simp at h
  · have hab : a = b := beq_iff_eq.1 h
    subst hab
    simp

lemma sum_map_filter_or (l : List MyRecord) (p q : MyRecord → Bool)
    (f : MyRecord → Nat) (h : ∀ r, ¬(p r = true ∧ q r = true)) :
    ((l.filter (fun r => p r || q r)).map f).sum =
      ((l.filter p).map f).sum + ((l.filter q).map f).sum := by
  induction l with
  | nil => simp
  | cons a t ih =>
    rcases hp : p a with _ | _ <;> rcases hq : q a with _ | _
    · simp only [List.filter_cons, hp, hq, Bool.or_self, Bool.false_eq_true,
        if_false, cond_false]
      exact ih
    · simp only [List.filter_cons, hp, hq, Bool.or_true, Bool.false_eq_true, if_false,
        if_true, cond_false, cond_true, List.map_cons, List.sum_cons]
      rw [ih]
      omega
    · simp only [List.filter_cons, hp, hq, Bool.true_or, Bool.false_eq_true, if_false,
        if_true, cond_false, cond_true, List.map_cons, List.sum_cons]
      rw [ih]
      omega
    · exact absurd ⟨hp, hq⟩ (h a)

lemma rollup_aux (records : List MyRecord) (s e : Int) (gs : List Student)
    (hnodup : (gs.map (fun st => st.whatsapp_id_student)).Nodup) :
    (gs.map (fun st =>
        studentTotalDuration (periodFilter records s e) st.whatsapp_id_student)).sum
      = groupTotalDuration records gs s e := by
  induction gs with
  | nil =>
    simp [groupTotalDuration, groupRecords]
  | cons st rest ih =>
    rw [List.map_cons] at hnodup
    have hhead : st.whatsapp_id_student ∉ rest.map (fun t => t.whatsapp_id_student) :=
      (List.nodup_cons.1 hnodup).1
    have htail := (List.nodup_cons.1 hnodup).2
    rw [List.map_cons, List.sum_cons, ih htail]
    unfold groupTotalDuration groupRecords
    have hsplit : records.filter (fun r =>
        (st :: rest).any (fun t => t.whatsapp_id_student == r.whatsapp_id_student)
        && decide (s ≤ effectiveDate r) && decide (effectiveDate r ≤ e)) =
      records.filter (fun r =>
        ((st.whatsapp_id_student == r.whatsapp_id_student)
          && (decide (s ≤ effectiveDate r) && decide (effectiveDate r ≤ e)))
        || (rest.any (fun t => t.whatsapp_id_student == r.whatsapp_id_student)
          && (decide (s ≤ effectiveDate r) && decide (effectiveDate r ≤ e)))) := by
      apply List.filter_congr
      intro r _
      rw [List.any_cons]
      cases st.whatsapp_id_student == r.whatsapp_id_student <;>
        cases rest.any (fun t => t.whatsapp_id_student == r.whatsapp_id_student) <;>
          cases decide (s ≤ effectiveDate r) <;> cases decide (effectiveDate r ≤ e) <;> rfl
    rw [hsplit, sum_map_filter_or]
    · congr 1
      · unfold studentTotalDuration periodFilter
        rw [List.filter_filter]
        apply congrArg
        apply congrArg
        apply List.filter_congr
        intro r _
        rw [beq_symm_str]
      · apply congrArg
        apply congrArg
        apply List.filter_congr
        intro r _
        cases rest.any (fun t => t.whatsapp_id_student == r.whatsapp_id_student) <;>
          cases decide (s ≤ effectiveDate r) <;> cases decide (effectiveDate r ≤ e) <;> rfl
    · intro r hr
      obtain ⟨h1, h2⟩ := hr
      simp only [Bool.and_eq_true, beq_iff_eq, List.any_eq_true] at h1 h2
      obtain ⟨hkey, _⟩ := h1
      obtain ⟨⟨t, ht, hteq⟩, _⟩ := h2
      exact hhead (List.mem_map.2 ⟨t, ht, by rw [hteq, hkey]⟩)

/-- C5: for every group, the sum over its current members (with pairwise-distinct
student keys) of the per-student totalDuration computed on the period-filtered
records equals the group rollup's totalDuration. -/
theorem group_rollup_duration (records : List MyRecord) (students : List Student)
    (g : Group) (s e : Int)
    (hkeys : ((groupMembers students g).map (fun st => st.whatsapp_id_student)).Nodup) :
    ((groupMembers students g).map (fun st =>
        studentTotalDuration (periodFilter records s e) st.whatsapp_id_student)).sum
      = groupTotalDuration records (groupMembers students g) s e :=
  rollup_aux records s e (groupMembers students g) hkeys

theorem group_rollup_duration_witness :
    ((groupMembers [stA, stB] grp1).map (fun st =>
        studentTotalDuration (periodFilter recsAB 8 14) st.whatsapp_id_student)).sum
      = groupTotalDuration recsAB (groupMembers [stA, stB] grp1) 8 14 :=
  group_rollup_duration recsAB [stA, stB] grp1 8 14 (by decide)

end StudentManager
